import Mathlib

/-!
Shallow embedding of the GlowMeet matching core
(`backend/matching/service.go`, storage-based variant): the in-process
result store (`MemoryStorage`), the `Service` read/write operations, the
orchestrator enqueue loop (`CalculateMatchesAsync`), the worker step, and
`callAI` including the oracle-response bracket extraction and the JSON
decoding performed by Go's `encoding/json`.

Modeling conventions:
- Go `float64` scores only ever come from JSON numbers in this core, so
  they are modeled as rationals (`ℚ`).
- Go maps are modeled as association lists with unique keys (lookup finds
  the first matching key; update replaces it in place or appends).
- `time.Time` is modeled as an abstract `Nat` tick passed explicitly.
- Go `int` (the `n` of `GetTopMatches`) is modeled as `Int`; a Go slice
  expression that can panic is modeled as an `Option` (`none` = panic).
-/

set_option maxRecDepth 4000

deriving instance DecidableEq for Except

namespace GlowMeet

/-- `matching.MatchResult` (storage-based variant of service.go: fields
`TargetID`, `Score`, `Reason`, `Timestamp`). -/
structure MatchResult where
  targetID : String
  score : ℚ
  reason : String
  timestamp : Nat
  deriving DecidableEq, Repr

/-- The Go zero value `MatchResult{}`. -/
def MatchResult.empty : MatchResult := ⟨"", 0, "", 0⟩

/-- `matching.UserInput`. -/
structure UserInput where
  id : String
  name : String
  username : String
  summary : String
  interests : String
  tweets : List String
  deriving DecidableEq, Repr

/-- `matching.persistedMatch`: one record of the seed file. -/
structure PersistedMatch where
  viewerID : String
  targetID : String
  score : ℚ
  reason : String
  deriving DecidableEq, Repr

/-- Go map lookup `m[k]` (comma-ok form), on an association list. -/
def assocFind {α : Type} (k : String) : List (String × α) → Option α
  | [] => none
  | (k2, v) :: rest => if k2 = k then some v else assocFind k rest

/-- Go map assignment `m[k] = v`: replace the entry in place, or append. -/
def assocUpdate {α : Type} (k : String) (v : α) : List (String × α) → List (String × α)
  | [] => [(k, v)]
  | (k2, v2) :: rest =>
      if k2 = k then (k, v) :: rest else (k2, v2) :: assocUpdate k v rest

/-- The inner map of `MemoryStorage.cache`: target id → result. -/
abbrev ViewerDeps := List (String × MatchResult)

/-- `MemoryStorage.cache : map[string]map[string]MatchResult`. -/
abbrev Cache := List (String × ViewerDeps)

/-- `MemoryStorage.GetMatch`: the comma-ok pair `(MatchResult, bool)` is
modeled as `Option MatchResult`. -/
def MemoryStorage.GetMatch (cache : Cache) (viewerID targetID : String) :
    Option MatchResult :=
  match assocFind viewerID cache with
  | some vDeps => assocFind targetID vDeps
  | none => none

/-- The comparator order used by `MemoryStorage.GetTopMatches`
(`sort.Slice` with less `i j ↦ matches[i].Score > matches[j].Score`
produces a sequence non-increasing in score). -/
def scoreDescR (a b : MatchResult) : Prop := b.score ≤ a.score

instance : DecidableRel scoreDescR :=
  fun a b => inferInstanceAs (Decidable (b.score ≤ a.score))

instance : IsTotal MatchResult scoreDescR :=
  ⟨fun a b => le_total b.score a.score⟩

instance : IsTrans MatchResult scoreDescR :=
  ⟨fun _ _ _ hab hbc => hbc.trans hab⟩

/-- The Go slice expression `l[:n]` for a slice whose capacity equals its
length: in bounds iff `0 ≤ n ≤ len(l)`, otherwise a runtime panic
(modeled as `none`). -/
def goSlice {α : Type} (l : List α) (n : Int) : Option (List α) :=
  if 0 ≤ n ∧ n ≤ (l.length : Int) then some (l.take n.toNat) else none

/-- `MemoryStorage.GetTopMatches`: copy the viewer's sub-map to a slice,
sort descending by score, and truncate with `matches[:n]` when
`len(matches) > n`.  The unspecified Go map iteration order is modeled as
the association-list order; `sort.Slice` is modeled as a sort with
respect to the same comparator.  `none` models the slice-bounds panic. -/
def MemoryStorage.GetTopMatches (cache : Cache) (viewerID : String) (n : Int) :
    Option (List MatchResult) :=
  match assocFind viewerID cache with
  | none => some []
  | some vDeps =>
      if vDeps.length = 0 then some []
      else
        let ms := List.insertionSort scoreDescR (vDeps.map Prod.snd)
        if (ms.length : Int) > n then goSlice ms n
        else some ms

/-- `MemoryStorage.UpdateMatch`: ensure the viewer's sub-map exists, then
assign `cache[viewerID][targetID] = res`. -/
def MemoryStorage.UpdateMatch (cache : Cache) (viewerID targetID : String)
    (res : MatchResult) : Cache :=
  assocUpdate viewerID
    (assocUpdate targetID res ((assocFind viewerID cache).getD [])) cache

/-- The record loop of `MemoryStorage.LoadFromFile` after the seed file has
been decoded into `[]persistedMatch`: for each record, insert
`MatchResult{TargetID, Score, Reason, time.Now()}` under
`cache[ViewerID][TargetID]`. -/
def MemoryStorage.loadSeed (cache : Cache) (records : List PersistedMatch)
    (now : Nat) : Cache :=
  records.foldl
    (fun c m =>
      MemoryStorage.UpdateMatch c m.viewerID m.targetID
        ⟨m.targetID, m.score, m.reason, now⟩)
    cache

/-- `Service.GetMatch`: returns the stored result, or the zero value when
the comma-ok bool is false. -/
def Service.GetMatch (cache : Cache) (viewerID targetID : String) : MatchResult :=
  (MemoryStorage.GetMatch cache viewerID targetID).getD MatchResult.empty

/-- `Service.GetTopMatches` just delegates to the storage backend. -/
def Service.GetTopMatches (cache : Cache) (viewerID : String) (n : Int) :
    Option (List MatchResult) :=
  MemoryStorage.GetTopMatches cache viewerID n

/-- `matching.matchingJob`. -/
structure matchingJob where
  viewer : UserInput
  candidate : UserInput
  deriving DecidableEq, Repr

/-- The enqueue loop run by the detached goroutine of
`Service.CalculateMatchesAsync`: for each candidate, skip it when its ID
equals the primary's ID, otherwise enqueue `(primary, c)` then
`(c, primary)`.  The value is the exact sequence of jobs sent to the
channel. -/
def enqueueLoop (primary : UserInput) : List UserInput → List matchingJob
  | [] => []
  | c :: rest =>
      if c.id = primary.id then enqueueLoop primary rest
      else ⟨primary, c⟩ :: ⟨c, primary⟩ :: enqueueLoop primary rest

/-- The opening-brace character, written by code point to keep it out of
string literals. -/
def lbrace : Char := Char.ofNat 123

/-- The closing-brace character. -/
def rbrace : Char := Char.ofNat 125

/-- The single-quote character. -/
def squote : Char := Char.ofNat 39

/-- `strings.Index(s, c)` for a one-character needle: index of the first
occurrence, `none` standing for Go's `-1`. -/
def firstIdx (c : Char) : List Char → Option Nat
  | [] => none
  | x :: xs => if x = c then some 0 else (firstIdx c xs).map (· + 1)

/-- `strings.LastIndex(s, c)` for a one-character needle. -/
def lastIdx (c : Char) (l : List Char) : Option Nat :=
  (firstIdx c l.reverse).map (fun i => l.length - 1 - i)

/-- `xai.Message`. -/
structure Message where
  role : String
  content : String
  deriving DecidableEq, Repr

/-- `xai.ChatRequest` (field order of the Go struct). -/
structure ChatRequest where
  messages : List Message
  model : String
  stream : Bool
  deriving DecidableEq, Repr

/-- `xai.Choice`. -/
structure Choice where
  index : Int
  message : Message
  finishReason : String
  deriving DecidableEq, Repr

/-- `xai.ChatResponse`. -/
structure ChatResponse where
  id : String
  choices : List Choice
  deriving DecidableEq, Repr

/-- `xai.ModelGrok41Fast`. -/
def ModelGrok41Fast : String := "grok-4-1-fast"

/-- `matching.truncate`: keep the first `n` entries. -/
def truncate (s : List String) (n : Nat) : List String :=
  if s.length > n then s.take n else s

/-- The `fmt.Sprintf` prompt template of `Service.callAI` with the six
`%s` arguments substituted (`strings.Join(truncate(tweets, 5), " | ")`
for the tweet lists). -/
def buildPrompt (v c : UserInput) : String :=
  "Analyze social compatibility between User A and User B.\n" ++
  "User A: " ++ v.summary ++ ". Interests: " ++ v.interests ++
  ". Recent tweets: " ++ String.intercalate " | " (truncate v.tweets 5) ++ ".\n" ++
  "User B: " ++ c.summary ++ ". Interests: " ++ c.interests ++
  ". Recent tweets: " ++ String.intercalate " | " (truncate c.tweets 5) ++ ".\n\n" ++
  "Return JSON: \x7b\n  \"score\": 0-100, \n  \"reason\": \"Very brief sentence on why they are a good match. Address User A as " ++
  String.singleton squote ++ "You" ++ String.singleton squote ++ ". E.g. " ++
  String.singleton squote ++ "You both love hiking and outdoor adventures!" ++
  String.singleton squote ++ "\"\n\x7d"

/-- The `xai.ChatRequest` built by `Service.callAI`. -/
def buildRequest (v c : UserInput) : ChatRequest :=
  ⟨[⟨"user", buildPrompt v c⟩], ModelGrok41Fast, false⟩

/-- A JSON value, the implicit data model of Go's `encoding/json`. -/
inductive Json where
  | null
  | bool (b : Bool)
  | num (q : ℚ)
  | str (s : String)
  | arr (elems : List Json)
  | obj (fields : List (String × Json))

/-- JSON insignificant whitespace. -/
def isWs (c : Char) : Bool :=
  c == ' ' || c == '\t' || c == '\n' || c == '\r'

/-- Drop leading JSON whitespace. -/
def skipWs : List Char → List Char
  | [] => []
  | c :: cs => if isWs c then skipWs cs else c :: cs

/-- One hex digit. -/
def hexVal (c : Char) : Option Nat :=
  let n := c.toNat
  if 48 ≤ n ∧ n ≤ 57 then some (n - 48)
  else if 97 ≤ n ∧ n ≤ 102 then some (n - 87)
  else if 65 ≤ n ∧ n ≤ 70 then some (n - 55)
  else none

/-- A single-character JSON string escape. -/
def escChar (e : Char) : Option Char :=
  if e = '"' then some '"'
  else if e = '\\' then some '\\'
  else if e = '/' then some '/'
  else if e = 'b' then some (Char.ofNat 8)
  else if e = 'f' then some (Char.ofNat 12)
  else if e = 'n' then some '\n'
  else if e = 'r' then some '\r'
  else if e = 't' then some '\t'
  else none

/-- Body of a JSON string, after the opening quote; returns the decoded
characters and the remainder after the closing quote. -/
def parseStringBody : List Char → Option (List Char × List Char)
  | [] => none
  | '"' :: rest => some ([], rest)
  | '\\' :: 'u' :: h1 :: h2 :: h3 :: h4 :: rest => do
      let a ← hexVal h1
      let b ← hexVal h2
      let c ← hexVal h3
      let d ← hexVal h4
      let p ← parseStringBody rest
      some (Char.ofNat (a * 4096 + b * 256 + c * 16 + d) :: p.1, p.2)
  | '\\' :: e :: rest => do
      let c ← escChar e
      let p ← parseStringBody rest
      some (c :: p.1, p.2)
  | '\\' :: [] => none
  | c :: rest => do
      let p ← parseStringBody rest
      some (c :: p.1, p.2)

/-- Longest prefix of decimal digits. -/
def takeDigits : List Char → List Char × List Char
  | [] => ([], [])
  | c :: cs =>
      if c.isDigit then
        let p := takeDigits cs
        (c :: p.1, p.2)
      else ([], c :: cs)

/-- Value of a digit string. -/
def digitsVal (ds : List Char) : Nat :=
  ds.foldl (fun a c => a * 10 + (c.toNat - 48)) 0

/-- Optional fractional part of a JSON number: the fraction digits. -/
def parseFrac : List Char → Option (List Char × List Char)
  | '.' :: r =>
      let p := takeDigits r
      if p.1 = [] then none else some (p.1, p.2)
  | cs => some ([], cs)

/-- Digits (with optional sign) of a JSON exponent. -/
def parseExpTail (r : List Char) : Option (Int × List Char) :=
  let sp : Int × List Char :=
    match r with
    | '+' :: r2 => (1, r2)
    | '-' :: r2 => (-1, r2)
    | _ => (1, r)
  let p := takeDigits sp.2
  if p.1 = [] then none else some (sp.1 * (digitsVal p.1 : Int), p.2)

/-- Optional exponent part of a JSON number. -/
def parseExp : List Char → Option (Int × List Char)
  | 'e' :: r => parseExpTail r
  | 'E' :: r => parseExpTail r
  | cs => some (0, cs)

/-- A JSON number (RFC 8259 grammar: optional minus, integer part without
leading zeros, optional fraction, optional exponent). -/
def parseNumber (cs : List Char) : Option (ℚ × List Char) :=
  let sp : Bool × List Char :=
    match cs with
    | '-' :: r => (true, r)
    | _ => (false, cs)
  let p := takeDigits sp.2
  if p.1 = [] then none
  else if p.1.length > 1 ∧ p.1.head? = some '0' then none
  else do
    let fr ← parseFrac p.2
    let ex ← parseExp fr.2
    let mant : Int := (digitsVal p.1 * 10 ^ fr.1.length + digitsVal fr.1 : Nat)
    let sMant : Int := if sp.1 then -mant else mant
    let e10 : Int := ex.1 - fr.1.length
    let q : ℚ :=
      if 0 ≤ e10 then mkRat (sMant * 10 ^ e10.toNat) 1
      else mkRat sMant (10 ^ (-e10).toNat)
    some (q, ex.2)

mutual

/-- A JSON value (input must start at a non-whitespace character); the
fuel only bounds nesting depth. -/
def parseValue : Nat → List Char → Option (Json × List Char)
  | 0, _ => none
  | _ + 1, [] => none
  | fuel + 1, c :: cs =>
      if c = 'n' then
        match cs with
        | 'u' :: 'l' :: 'l' :: rest => some (Json.null, rest)
        | _ => none
      else if c = 't' then
        match cs with
        | 'r' :: 'u' :: 'e' :: rest => some (Json.bool true, rest)
        | _ => none
      else if c = 'f' then
        match cs with
        | 'a' :: 'l' :: 's' :: 'e' :: rest => some (Json.bool false, rest)
        | _ => none
      else if c = '"' then
        (parseStringBody cs).map (fun p => (Json.str (String.mk p.1), p.2))
      else if c = lbrace then
        match skipWs cs with
        | x :: xs =>
            if x = rbrace then some (Json.obj [], xs)
            else (parseMembers fuel (x :: xs)).map (fun p => (Json.obj p.1, p.2))
        | [] => none
      else if c = '[' then
        match skipWs cs with
        | x :: xs =>
            if x = ']' then some (Json.arr [], xs)
            else (parseElems fuel (x :: xs)).map (fun p => (Json.arr p.1, p.2))
        | [] => none
      else if c = '-' ∨ c.isDigit then
        (parseNumber (c :: cs)).map (fun p => (Json.num p.1, p.2))
      else none

/-- The members of a JSON object, starting at the first key. -/
def parseMembers : Nat → List Char → Option (List (String × Json) × List Char)
  | 0, _ => none
  | fuel + 1, cs =>
      match cs with
      | '"' :: cs1 => do
          let pk ← parseStringBody cs1
          match skipWs pk.2 with
          | ':' :: cs3 => do
              let pv ← parseValue fuel (skipWs cs3)
              match skipWs pv.2 with
              | ',' :: cs5 => do
                  let pr ← parseMembers fuel (skipWs cs5)
                  some ((String.mk pk.1, pv.1) :: pr.1, pr.2)
              | x :: cs5 =>
                  if x = rbrace then some ([(String.mk pk.1, pv.1)], cs5)
                  else none
              | [] => none
          | _ => none
      | _ => none

/-- The elements of a JSON array, starting at the first element. -/
def parseElems : Nat → List Char → Option (List Json × List Char)
  | 0, _ => none
  | fuel + 1, cs => do
      let pv ← parseValue fuel cs
      match skipWs pv.2 with
      | ',' :: cs2 => do
          let pr ← parseElems fuel (skipWs cs2)
          some (pv.1 :: pr.1, pr.2)
      | ']' :: cs2 => some ([pv.1], cs2)
      | _ => none

end

/-- A whole input as one JSON value: `json.Unmarshal` rejects anything but
whitespace after the top-level value.  The fuel `s.length + 1` dominates
any possible nesting depth. -/
def parseJsonTop (s : String) : Option Json :=
  match parseValue (s.length + 1) (skipWs s.data) with
  | some (j, rest) => if skipWs rest = [] then some j else none
  | none => none

/-- ASCII lowercase of one character. -/
def asciiLowerChar (c : Char) : Char :=
  if 65 ≤ c.toNat ∧ c.toNat ≤ 90 then Char.ofNat (c.toNat + 32) else c

/-- ASCII lowercase of a string (enough to model Go's case-insensitive
JSON field matching for the all-ASCII tags `score` and `reason`). -/
def asciiLower (s : String) : String :=
  String.mk (s.data.map asciiLowerChar)

/-- Decoding one object member into the anonymous Go struct
`{ Score float64 ; Reason string }` of `Service.callAI`: tag match is
case-insensitive, unknown keys are ignored, a JSON `null` member leaves
the field untouched, and a type mismatch is an error. -/
def setField (acc : ℚ × String) (kv : String × Json) : Option (ℚ × String) :=
  if asciiLower kv.1 = "score" then
    match kv.2 with
    | Json.num q => some (q, acc.2)
    | Json.null => some acc
    | _ => none
  else if asciiLower kv.1 = "reason" then
    match kv.2 with
    | Json.str s => some (acc.1, s)
    | Json.null => some acc
    | _ => none
  else some acc

/-- `json.Unmarshal` of a decoded JSON value into the score-reason struct.
Go's documented rule: a top-level `null` is a no-op (zero values, no
error); an object decodes field-wise; any other value is a type error. -/
def decodeScoreReason : Json → Option (ℚ × String)
  | Json.null => some (0, "")
  | Json.obj fields => fields.foldlM setField ((0 : ℚ), "")
  | _ => none

/-- `json.Unmarshal([]byte(content), &out)` for the score-reason struct. -/
def unmarshalScoreReason (s : String) : Except String (ℚ × String) :=
  match parseJsonTop s with
  | none => Except.error "invalid json"
  | some j =>
      match decodeScoreReason j with
      | none => Except.error "cannot unmarshal value into score-reason struct"
      | some p => Except.ok p

/-- The extraction step of `Service.callAI`: take the substring from the
first `{` to the last `}` when both exist in that order, else leave the
text unchanged. -/
def extractJsonSpan (content : String) : String :=
  match firstIdx lbrace content.data, lastIdx rbrace content.data with
  | some s, some e =>
      if s < e then String.mk ((content.data.drop s).take (e + 1 - s))
      else content
  | _, _ => content

/-- `Service.callAI`, with the oracle (`aiClient.CreateChatCompletion`)
passed as a function and the number of oracle invocations returned
alongside the result.  Mirrors the Go control flow: no-signal
short-circuit, transport error, empty choices, brace extraction,
`json.Unmarshal`, and on success a `MatchResult` with `TargetID = c.ID`. -/
def callAI (oracle : ChatRequest → Except String ChatResponse) (now : Nat)
    (v c : UserInput) : Except String MatchResult × Nat :=
  if v.tweets.length = 0 ∧ v.interests = "" then
    (Except.error "viewer has no data", 0)
  else
    match oracle (buildRequest v c) with
    | Except.error e => (Except.error e, 1)
    | Except.ok resp =>
        match resp.choices with
        | [] => (Except.error "no choices", 1)
        | choice :: _ =>
            let content := choice.message.content
            let content2 :=
              match firstIdx lbrace content.data, lastIdx rbrace content.data with
              | some s, some e =>
                  if s < e then String.mk ((content.data.drop s).take (e + 1 - s))
                  else content
              | _, _ => content
            match unmarshalScoreReason content2 with
            | Except.error e => (Except.error e, 1)
            | Except.ok p => (Except.ok ⟨c.id, p.1, p.2, now⟩, 1)

/-- One iteration of `Service.worker`: on any `callAI` failure the job is
logged and dropped (the store is untouched); on success the result is
stored under `(viewer.ID, candidate.ID)`. -/
def workerStep (oracle : ChatRequest → Except String ChatResponse) (now : Nat)
    (cache : Cache) (job : matchingJob) : Cache :=
  match (callAI oracle now job.viewer job.candidate).1 with
  | Except.error _ => cache
  | Except.ok res =>
      MemoryStorage.UpdateMatch cache job.viewer.id job.candidate.id res

/-- A worker draining a list of jobs in order. -/
def workerRun (oracle : ChatRequest → Except String ChatResponse) (now : Nat)
    (cache : Cache) (jobs : List matchingJob) : Cache :=
  jobs.foldl (workerStep oracle now) cache

/-- Store states reachable from the empty store through the core's own
write paths: worker steps and seed loading. -/
inductive Reachable : Cache → Prop where
  | empty : Reachable []
  | step (oracle : ChatRequest → Except String ChatResponse) (now : Nat)
      (job : matchingJob) {c : Cache} :
      Reachable c → Reachable (workerStep oracle now c job)
  | seed (records : List PersistedMatch) (now : Nat) {c : Cache} :
      Reachable c → Reachable (MemoryStorage.loadSeed c records now)

/-- Every stored entry's `TargetID` field equals its inner map key. -/
def CacheWellFormed (cache : Cache) : Prop :=
  ∀ pv ∈ cache, ∀ pt ∈ pv.2, (pt.2 : MatchResult).targetID = pt.1

/-- Number of stored results for a viewer (the size of the viewer's
sub-map, zero when the viewer is absent). -/
def viewerCount (cache : Cache) (viewerID : String) : Nat :=
  ((assocFind viewerID cache).getD []).length

/-- No well-formed bracket pair in the sense of the spec: no `{`, or no
`}`, or the last `}` does not come after the first `{`. -/
def noBracketPair (s : String) : Bool :=
  match firstIdx lbrace s.data, lastIdx rbrace s.data with
  | some i, some j => decide (j ≤ i)
  | _, _ => true

/-- The bare oracle answer `{"score":88.5,"reason":"Good match."}`. -/
def bareJson : String := "\x7b\"score\":88.5,\"reason\":\"Good match.\"\x7d"

/-- The same answer wrapped in extraneous surrounding prose. -/
def wrappedJson : String := "Sure! " ++ bareJson ++ " thanks"

/-- A stand-in oracle that always answers with the given content. -/
def oracleConst (s : String) : ChatRequest → Except String ChatResponse :=
  fun _ => Except.ok ⟨"id", [⟨0, ⟨"assistant", s⟩, "stop"⟩]⟩

/-- A viewer descriptor carrying signal (non-empty tweets). -/
def vData : UserInput := ⟨"v9", "Vee", "vee", "Engineer", "Go, AI", ["hello"]⟩

/-- A viewer descriptor with empty tweets and empty interests. -/
def vEmpty : UserInput := ⟨"v0", "Nil", "nil", "", "", []⟩

/-- An arbitrary candidate descriptor. -/
def cAny : UserInput := ⟨"c9", "Cee", "cee", "Designer", "UI", []⟩

/-- The store state of the spec's concrete example: scores
`{c1:50, c2:90, c3:10, c4:75}` inserted under viewer `v1`. -/
def exCacheC1 : Cache :=
  MemoryStorage.UpdateMatch
    (MemoryStorage.UpdateMatch
      (MemoryStorage.UpdateMatch
        (MemoryStorage.UpdateMatch [] "v1" "c1" ⟨"c1", 50, "", 0⟩)
        "v1" "c2" ⟨"c2", 90, "", 0⟩)
      "v1" "c3" ⟨"c3", 10, "", 0⟩)
    "v1" "c4" ⟨"c4", 75, "", 0⟩

/-- A store state with two results of equal score under one viewer. -/
def tieCache : Cache :=
  MemoryStorage.UpdateMatch
    (MemoryStorage.UpdateMatch [] "v1" "c1" ⟨"c1", 50, "r1", 0⟩)
    "v1" "c2" ⟨"c2", 50, "r2", 0⟩

/-- A store state with one result under viewer `v1`. -/
def oneCache : Cache :=
  MemoryStorage.UpdateMatch [] "v1" "c1" ⟨"c1", 50, "x", 0⟩

/-- A seed list with two records for the same ordered pair. -/
def dupSeedRecords : List PersistedMatch :=
  [⟨"v1", "c1", 1, "first"⟩, ⟨"v1", "c1", 2, "second"⟩]

/-- A stand-in oracle whose transport always fails. -/
def oracleFail : ChatRequest → Except String ChatResponse :=
  fun _ => Except.error "boom"

/-! ### Association-list lemmas -/

theorem assocFind_assocUpdate_self {α : Type} (k : String) (v : α)
    (l : List (String × α)) : assocFind k (assocUpdate k v l) = some v := by
  induction l with
  | nil => simp [assocUpdate, assocFind]
  | cons p rest ih =>
      obtain ⟨k2, v2⟩ := p
      by_cases hk : k2 = k
      · simp [assocUpdate, hk, assocFind]
      · simp [assocUpdate, hk, assocFind, ih]

theorem assocFind_assocUpdate_ne {α : Type} {k2 k : String} (hk : k2 ≠ k)
    (v : α) (l : List (String × α)) :
    assocFind k2 (assocUpdate k v l) = assocFind k2 l := by
  have hk2 : k ≠ k2 := Ne.symm hk
  induction l with
  | nil => simp [assocUpdate, assocFind, hk2]
  | cons p rest ih =>
      obtain ⟨k3, v3⟩ := p
      by_cases hk3 : k3 = k
      · subst hk3
        simp [assocUpdate, assocFind, hk2]
      · simp [assocUpdate, hk3, assocFind, ih]

theorem mem_assocUpdate {α : Type} {p : String × α} {k : String} {v : α}
    {l : List (String × α)} (h : p ∈ assocUpdate k v l) :
    p = (k, v) ∨ p ∈ l := by
  induction l with
  | nil => simpa [assocUpdate] using h
  | cons q rest ih =>
      obtain ⟨k2, v2⟩ := q
      by_cases hk : k2 = k
      · simp [assocUpdate, hk] at h
        rcases h with h | h
        · exact Or.inl (by simp [h])
        · exact Or.inr (by simp [h])
      · simp [assocUpdate, hk] at h
        rcases h with h | h
        · exact Or.inr (by simp [h])
        · rcases ih h with h2 | h2
          · exact Or.inl h2
          · exact Or.inr (by simp [h2])

theorem assocFind_mem {α : Type} {k : String} {v : α} {l : List (String × α)}
    (h : assocFind k l = some v) : (k, v) ∈ l := by
  induction l with
  | nil => simp [assocFind] at h
  | cons p rest ih =>
      obtain ⟨k2, v2⟩ := p
      by_cases hk : k2 = k
      · subst hk
        simp [assocFind] at h
        simp [h]
      · simp [assocFind, hk] at h
        simp [ih h]

/-! ### Store read/write lemmas -/

theorem getMatch_update_self (cache : Cache) (v t : String) (res : MatchResult) :
    MemoryStorage.GetMatch (MemoryStorage.UpdateMatch cache v t res) v t =
      some res := by
  unfold MemoryStorage.GetMatch MemoryStorage.UpdateMatch
  rw [assocFind_assocUpdate_self]
  exact assocFind_assocUpdate_self ..

theorem getMatch_update_other {v2 t2 v t : String}
    (h : ¬(v2 = v ∧ t2 = t)) (cache : Cache) (res : MatchResult) :
    MemoryStorage.GetMatch (MemoryStorage.UpdateMatch cache v t res) v2 t2 =
      MemoryStorage.GetMatch cache v2 t2 := by
  unfold MemoryStorage.GetMatch MemoryStorage.UpdateMatch
  by_cases hv : v2 = v
  · subst hv
    have ht : t2 ≠ t := fun h2 => h ⟨rfl, h2⟩
    rw [assocFind_assocUpdate_self]
    cases hc : assocFind v2 cache with
    | none =>
        simp only [Option.getD_none]
        simp [assocFind_assocUpdate_ne ht, assocFind, Ne.symm ht]
    | some d =>
        simp only [Option.getD_some]
        simp [assocFind_assocUpdate_ne ht]
  · rw [assocFind_assocUpdate_ne hv]

theorem getTopMatches_update_other {v2 v : String} (hv : v2 ≠ v)
    (cache : Cache) (t : String) (res : MatchResult) (n : Int) :
    MemoryStorage.GetTopMatches (MemoryStorage.UpdateMatch cache v t res) v2 n =
      MemoryStorage.GetTopMatches cache v2 n := by
  unfold MemoryStorage.GetTopMatches MemoryStorage.UpdateMatch
  rw [assocFind_assocUpdate_ne hv]

theorem loadSeed_cons (cache : Cache) (r : PersistedMatch)
    (rest : List PersistedMatch) (now : Nat) :
    MemoryStorage.loadSeed cache (r :: rest) now =
      MemoryStorage.loadSeed
        (MemoryStorage.UpdateMatch cache r.viewerID r.targetID
          ⟨r.targetID, r.score, r.reason, now⟩) rest now := rfl

theorem getMatch_loadSeed_frame {v t : String} {recs : List PersistedMatch}
    (h : ∀ r ∈ recs, ¬(r.viewerID = v ∧ r.targetID = t)) (cache : Cache)
    (now : Nat) :
    MemoryStorage.GetMatch (MemoryStorage.loadSeed cache recs now) v t =
      MemoryStorage.GetMatch cache v t := by
  induction recs generalizing cache with
  | nil => rfl
  | cons r rest ih =>
      rw [loadSeed_cons, ih (fun r2 hr2 => h r2 (List.mem_cons_of_mem r hr2))]
      exact getMatch_update_other
        (fun h2 => h r (List.mem_cons_self r rest) ⟨h2.1.symm, h2.2.symm⟩) ..

/-! ### `callAI` shape lemmas -/

theorem callAI_eq_of_response
    (oracle : ChatRequest → Except String ChatResponse) (now : Nat)
    (v c : UserInput) (resp : ChatResponse) (choice : Choice)
    (rest : List Choice) (h0 : ¬(v.tweets.length = 0 ∧ v.interests = ""))
    (hor : oracle (buildRequest v c) = Except.ok resp)
    (hch : resp.choices = choice :: rest) :
    callAI oracle now v c =
      (Except.map (fun p => (⟨c.id, p.1, p.2, now⟩ : MatchResult))
        (unmarshalScoreReason (extractJsonSpan choice.message.content)), 1) := by
  obtain ⟨rid, rchoices⟩ := resp
  have hch2 : rchoices = choice :: rest := hch
  subst hch2
  unfold callAI extractJsonSpan
  rw [if_neg h0, hor]
  cases hu : unmarshalScoreReason
      (match firstIdx lbrace choice.message.content.data,
             lastIdx rbrace choice.message.content.data with
       | some s, some e =>
           if s < e then
             String.mk ((choice.message.content.data.drop s).take (e + 1 - s))
           else choice.message.content
       | _, _ => choice.message.content) with
  | error e => simp only [hu]; rfl
  | ok p => simp only [hu]; rfl

theorem callAI_ok_targetID {oracle : ChatRequest → Except String ChatResponse}
    {now : Nat} {v c : UserInput} {res : MatchResult}
    (h : (callAI oracle now v c).1 = Except.ok res) : res.targetID = c.id := by
  by_cases h0 : v.tweets.length = 0 ∧ v.interests = ""
  · rw [show callAI oracle now v c = (Except.error "viewer has no data", 0) from
      by unfold callAI; rw [if_pos h0]] at h
    simp at h
  · cases hor : oracle (buildRequest v c) with
    | error e =>
        rw [show callAI oracle now v c = (Except.error e, 1) from
          by unfold callAI; rw [if_neg h0, hor]] at h
        simp at h
    | ok resp =>
        obtain ⟨rid, rchoices⟩ := resp
        cases hch : rchoices with
        | nil =>
            subst hch
            rw [show callAI oracle now v c = (Except.error "no choices", 1) from
              by unfold callAI; rw [if_neg h0, hor]] at h
            simp at h
        | cons choice rest =>
            rw [callAI_eq_of_response oracle now v c ⟨rid, rchoices⟩ choice rest
              h0 hor hch] at h
            cases hu : unmarshalScoreReason
                (extractJsonSpan choice.message.content) with
            | error e => rw [hu] at h; simp [Except.map] at h
            | ok p =>
                rw [hu] at h
                simp [Except.map] at h
                rw [← h]

/-! ### Well-formedness preservation -/

theorem cacheWF_update {cache : Cache} {t : String} {res : MatchResult}
    (hwf : CacheWellFormed cache) (v : String) (hres : res.targetID = t) :
    CacheWellFormed (MemoryStorage.UpdateMatch cache v t res) := by
  intro pv hpv pt hpt
  unfold MemoryStorage.UpdateMatch at hpv
  rcases mem_assocUpdate hpv with hpv2 | hpv2
  · subst hpv2
    rcases mem_assocUpdate hpt with hpt2 | hpt2
    · subst hpt2; exact hres
    · cases hc : assocFind v cache with
      | none => rw [hc] at hpt2; simp at hpt2
      | some d =>
          rw [hc] at hpt2
          exact hwf (v, d) (assocFind_mem hc) pt hpt2
  · exact hwf pv hpv2 pt hpt

theorem cacheWF_loadSeed (recs : List PersistedMatch) (now : Nat) :
    ∀ cache : Cache, CacheWellFormed cache →
      CacheWellFormed (MemoryStorage.loadSeed cache recs now) := by
  induction recs with
  | nil => exact fun cache hwf => hwf
  | cons r rest ih =>
      intro cache hwf
      rw [loadSeed_cons]
      exact ih _ (cacheWF_update hwf r.viewerID rfl)

theorem cacheWF_workerStep {cache : Cache}
    (oracle : ChatRequest → Except String ChatResponse) (now : Nat)
    (job : matchingJob) (hwf : CacheWellFormed cache) :
    CacheWellFormed (workerStep oracle now cache job) := by
  unfold workerStep
  cases h : (callAI oracle now job.viewer job.candidate).1 with
  | error e => exact hwf
  | ok res => exact cacheWF_update hwf job.viewer.id (callAI_ok_targetID h)

theorem reachable_wellFormed {cache : Cache} (h : Reachable cache) :
    CacheWellFormed cache := by
  induction h with
  | empty => intro pv hpv; simp at hpv
  | step oracle now job _ ih => exact cacheWF_workerStep oracle now job ih
  | seed records now _ ih => exact cacheWF_loadSeed records now _ ih

theorem getMatch_some_targetID {cache : Cache} {v t : String} {m : MatchResult}
    (hwf : CacheWellFormed cache)
    (h : MemoryStorage.GetMatch cache v t = some m) : m.targetID = t := by
  unfold MemoryStorage.GetMatch at h
  cases hc : assocFind v cache with
  | none => rw [hc] at h; simp at h
  | some d =>
      rw [hc] at h
      exact hwf (v, d) (assocFind_mem hc) (t, m) (assocFind_mem h)

theorem getTopMatches_viewer_absent {cache : Cache} {v : String}
    (hc : assocFind v cache = none) (n : Int) :
    MemoryStorage.GetTopMatches cache v n = some [] := by
  unfold MemoryStorage.GetTopMatches
  rw [hc]

theorem getTopMatches_viewer_present {cache : Cache} {v : String}
    {vDeps : ViewerDeps} (hc : assocFind v cache = some vDeps) (n : Int) :
    MemoryStorage.GetTopMatches cache v n =
      if vDeps.length = 0 then some []
      else
        if ((List.insertionSort scoreDescR (vDeps.map Prod.snd)).length : Int)
            > n then
          goSlice (List.insertionSort scoreDescR (vDeps.map Prod.snd)) n
        else some (List.insertionSort scoreDescR (vDeps.map Prod.snd)) := by
  unfold MemoryStorage.GetTopMatches
  rw [hc]

theorem enqueueLoop_cons_skip {c primary : UserInput}
    (h : c.id = primary.id) (rest : List UserInput) :
    enqueueLoop primary (c :: rest) = enqueueLoop primary rest := by
  simp [enqueueLoop, h]

theorem enqueueLoop_cons_take {c primary : UserInput}
    (h : ¬c.id = primary.id) (rest : List UserInput) :
    enqueueLoop primary (c :: rest) =
      ⟨primary, c⟩ :: ⟨c, primary⟩ :: enqueueLoop primary rest := by
  simp [enqueueLoop, h]

/-! ### Claim theorems -/

/-- C2: for every job whose viewer descriptor has an empty tweets list
and an empty interests string, `callAI` returns the no-signal error
immediately and the oracle is invoked zero times, regardless of the
candidate's fields and of the oracle supplied. -/
theorem callAI_no_signal_short_circuit :
    ∀ (oracle : ChatRequest → Except String ChatResponse) (now : Nat)
      (v c : UserInput), v.tweets = [] → v.interests = "" →
      callAI oracle now v c = (Except.error "viewer has no data", 0) := by
  intro oracle now v c h1 h2
  unfold callAI
  rw [if_pos ⟨by rw [h1]; rfl, h2⟩]

/-- Witness for C2: a concrete empty-descriptor viewer against a
recording-style constant oracle; the returned call count is zero. -/
theorem callAI_no_signal_short_circuit_witness :
    callAI (oracleConst bareJson) 5 vEmpty cAny =
      (Except.error "viewer has no data", 0) :=
  callAI_no_signal_short_circuit (oracleConst bareJson) 5 vEmpty cAny rfl rfl

/-- C4: the enqueue loop of `CalculateMatchesAsync` enqueues exactly the
two jobs `(primary, c)` and `(c, primary)` for each candidate whose ID
differs from the primary's, skips candidates with the primary's ID, and
never enqueues a job whose viewer ID equals its candidate ID; an empty
candidate list enqueues zero jobs. -/
theorem calculateMatchesAsync_enqueues_pairs :
    ∀ (primary : UserInput) (candidates : List UserInput),
      enqueueLoop primary [] = [] ∧
      enqueueLoop primary candidates =
        (candidates.filter (fun c => !(c.id == primary.id))).flatMap
          (fun c => [⟨primary, c⟩, ⟨c, primary⟩]) ∧
      (∀ j ∈ enqueueLoop primary candidates, j.viewer.id ≠ j.candidate.id) := by
  intro primary candidates
  refine ⟨rfl, ?_, ?_⟩
  · induction candidates with
    | nil => rfl
    | cons c rest ih =>
        by_cases h : c.id = primary.id
        · simp [enqueueLoop, h, List.filter_cons, ih]
        · simp [enqueueLoop, h, List.filter_cons, ih]
  · induction candidates with
    | nil => intro j hj; simp [enqueueLoop] at hj
    | cons c rest ih =>
        intro j hj
        by_cases h : c.id = primary.id
        · rw [enqueueLoop_cons_skip h] at hj
          exact ih j hj
        · rw [enqueueLoop_cons_take h] at hj
          rcases List.mem_cons.mp hj with rfl | hj2
          · exact fun he => h he.symm
          · rcases List.mem_cons.mp hj2 with rfl | hj3
            · exact h
            · exact ih j hj3

/-- Witness for C4: the empty candidate list enqueues nothing, and a
concrete enqueued job has distinct viewer and candidate IDs. -/
theorem calculateMatchesAsync_enqueues_pairs_witness :
    enqueueLoop vData [] = [] ∧
    (⟨vData, cAny⟩ : matchingJob).viewer.id ≠
      (⟨vData, cAny⟩ : matchingJob).candidate.id :=
  ⟨(calculateMatchesAsync_enqueues_pairs vData []).1,
   (calculateMatchesAsync_enqueues_pairs vData [cAny]).2.2 ⟨vData, cAny⟩
     (by decide)⟩

/-- C5: when `callAI` fails for a job (for any reason), the worker writes
nothing — the store is left exactly as it was, every read is unchanged —
and the worker continues with the rest of the job list. -/
theorem worker_failure_preserves_store :
    ∀ (oracle : ChatRequest → Except String ChatResponse) (now : Nat)
      (cache : Cache) (job : matchingJob) (e : String)
      (rest : List matchingJob),
      (callAI oracle now job.viewer job.candidate).1 = Except.error e →
        workerStep oracle now cache job = cache ∧
        (∀ v t, MemoryStorage.GetMatch (workerStep oracle now cache job) v t =
          MemoryStorage.GetMatch cache v t) ∧
        workerRun oracle now cache (job :: rest) =
          workerRun oracle now cache rest := by
  intro oracle now cache job e rest h
  have hs : workerStep oracle now cache job = cache := by
    unfold workerStep
    rw [h]
  exact ⟨hs, fun v t => by rw [hs],
    by unfold workerRun; rw [List.foldl_cons, hs]⟩

/-- Witness for C5: a transport-failing oracle leaves a concrete store
untouched and the worker proceeds to the next job. -/
theorem worker_failure_preserves_store_witness :
    workerStep oracleFail 0 oneCache ⟨vData, cAny⟩ = oneCache ∧
    MemoryStorage.GetMatch (workerStep oracleFail 0 oneCache ⟨vData, cAny⟩)
      "v1" "c1" = MemoryStorage.GetMatch oneCache "v1" "c1" ∧
    workerRun oracleFail 0 oneCache [⟨vData, cAny⟩] =
      workerRun oracleFail 0 oneCache [] := by
  have h := worker_failure_preserves_store oracleFail 0 oneCache ⟨vData, cAny⟩
    "boom" [] (by decide)
  exact ⟨h.1, h.2.1 "v1" "c1", h.2.2⟩

/-- C7: the read path never errors on absence: `GetMatch` on a pair with
no stored entry returns the zero `MatchResult`, and `GetTopMatches` on a
viewer with no stored entries returns the empty list (for every `n`,
including negative ones). -/
theorem read_path_never_errors :
    ∀ (cache : Cache) (v t : String) (n : Int),
      (MemoryStorage.GetMatch cache v t = none →
        Service.GetMatch cache v t = MatchResult.empty) ∧
      (assocFind v cache = none ∨ assocFind v cache = some [] →
        Service.GetTopMatches cache v n = some []) := by
  intro cache v t n
  constructor
  · intro h
    unfold Service.GetMatch
    rw [h]
    rfl
  · intro h
    unfold Service.GetTopMatches MemoryStorage.GetTopMatches
    rcases h with h | h <;> rw [h]
    rfl

/-- Witness for C7: concrete missing viewer on a non-empty store. -/
theorem read_path_never_errors_witness :
    Service.GetMatch oneCache "v2" "c1" = MatchResult.empty ∧
    Service.GetTopMatches oneCache "v2" (-5) = some [] :=
  ⟨(read_path_never_errors oneCache "v2" "c1" (-5)).1 (by decide),
   (read_path_never_errors oneCache "v2" "c1" (-5)).2 (Or.inl (by decide))⟩

/-- C8: under the precondition `n ≥ 0`, `GetTopMatches` is total for every
store state, and `GetTopMatches(viewer, 0)` returns the empty list; the
precondition is necessary — on a store with one entry, `n = -1` reaches
the slice `matches[:n]` out of bounds (the modeled panic). -/
theorem getTopMatches_total_for_nonneg :
    (∀ (cache : Cache) (v : String) (n : Int), 0 ≤ n →
      (MemoryStorage.GetTopMatches cache v n).isSome = true) ∧
    (∀ (cache : Cache) (v : String),
      MemoryStorage.GetTopMatches cache v 0 = some []) ∧
    MemoryStorage.GetTopMatches oneCache "v1" (-1) = none := by
  refine ⟨?_, ?_, by decide⟩
  · intro cache v n hn
    cases hc : assocFind v cache with
    | none => rw [getTopMatches_viewer_absent hc]; rfl
    | some vDeps =>
        rw [getTopMatches_viewer_present hc]
        by_cases h0 : vDeps.length = 0
        · rw [if_pos h0]
          rfl
        · rw [if_neg h0]
          by_cases hgt :
              ((List.insertionSort scoreDescR (vDeps.map Prod.snd)).length : Int)
                > n
          · rw [if_pos hgt]
            unfold goSlice
            rw [if_pos ⟨hn, le_of_lt hgt⟩]
            rfl
          · rw [if_neg hgt]
            rfl
  · intro cache v
    cases hc : assocFind v cache with
    | none => exact getTopMatches_viewer_absent hc 0
    | some vDeps =>
        rw [getTopMatches_viewer_present hc]
        by_cases h0 : vDeps.length = 0
        · rw [if_pos h0]
        · rw [if_neg h0]
          have hgt :
              ((List.insertionSort scoreDescR (vDeps.map Prod.snd)).length : Int)
                > 0 := by
            simp only [List.length_insertionSort, List.length_map]
            exact_mod_cast Nat.pos_of_ne_zero h0
          rw [if_pos hgt]
          unfold goSlice
          rw [if_pos ⟨le_refl 0, le_of_lt hgt⟩]
          simp

/-- Witness for C8: the totality conjunct applied at a concrete store
and `n = 3`. -/
theorem getTopMatches_total_for_nonneg_witness :
    (MemoryStorage.GetTopMatches exCacheC1 "v1" 3).isSome = true :=
  getTopMatches_total_for_nonneg.1 exCacheC1 "v1" 3 (by decide)

/-- C9: `UpdateMatch` modifies only the entry of the updated ordered
pair: every other pair reads the same before and after, and every other
viewer's top-matches sequence is unchanged. -/
theorem updateMatch_frame :
    ∀ (cache : Cache) (v t : String) (res : MatchResult) (v2 t2 : String)
      (n : Int),
      (¬(v2 = v ∧ t2 = t) →
        MemoryStorage.GetMatch (MemoryStorage.UpdateMatch cache v t res) v2 t2 =
          MemoryStorage.GetMatch cache v2 t2) ∧
      (v2 ≠ v →
        MemoryStorage.GetTopMatches (MemoryStorage.UpdateMatch cache v t res)
            v2 n =
          MemoryStorage.GetTopMatches cache v2 n) :=
  fun cache v t res v2 t2 n =>
    ⟨fun h => getMatch_update_other h cache res,
     fun h => getTopMatches_update_other h cache t res n⟩

/-- Witness for C9: a concrete update leaves a sibling target and a
different viewer unchanged. -/
theorem updateMatch_frame_witness :
    MemoryStorage.GetMatch
        (MemoryStorage.UpdateMatch oneCache "v1" "c2" ⟨"c2", 99, "y", 1⟩)
        "v1" "c1" =
      MemoryStorage.GetMatch oneCache "v1" "c1" ∧
    MemoryStorage.GetTopMatches
        (MemoryStorage.UpdateMatch oneCache "v1" "c2" ⟨"c2", 99, "y", 1⟩)
        "v2" 3 =
      MemoryStorage.GetTopMatches oneCache "v2" 3 :=
  ⟨(updateMatch_frame oneCache "v1" "c2" ⟨"c2", 99, "y", 1⟩ "v1" "c1" 3).1
     (by decide),
   (updateMatch_frame oneCache "v1" "c2" ⟨"c2", 99, "y", 1⟩ "v2" "c1" 3).2
     (by decide)⟩

/-- C1 counterexample: with two stored results of equal score under one
viewer, the returned sequence is not sorted strictly descending by score
(the comparator `Score > Score` admits ties), refuting the claim's
"strictly descending" for this store state. -/
theorem getTopMatches_tie_counterexample :
    MemoryStorage.GetTopMatches tieCache "v1" 2 =
      some [⟨"c1", 50, "r1", 0⟩, ⟨"c2", 50, "r2", 0⟩] ∧
    ¬ List.Sorted (fun a b : MatchResult => b.score < a.score)
        [(⟨"c1", 50, "r1", 0⟩ : MatchResult), ⟨"c2", 50, "r2", 0⟩] := by
  constructor
  · decide
  · decide

/-- C1 (amended): for every store state and `n ≥ 0`, `GetTopMatches`
returns a sequence sorted non-increasing (weakly descending) by score, of
length `min(n, count of stored results for that viewer)`; concretely,
after inserting scores `{c1:50, c2:90, c3:10, c4:75}` under viewer `v1`,
`GetTopMatches("v1", 3)` yields target order `[c2, c4, c1]`. -/
theorem getTopMatches_sorted_and_length :
    (∀ (cache : Cache) (viewerID : String) (n : Int), 0 ≤ n →
      ∃ l, MemoryStorage.GetTopMatches cache viewerID n = some l ∧
        List.Sorted scoreDescR l ∧
        l.length = min n.toNat (viewerCount cache viewerID)) ∧
    (MemoryStorage.GetTopMatches exCacheC1 "v1" 3).map
        (List.map MatchResult.targetID) = some ["c2", "c4", "c1"] := by
  constructor
  · intro cache viewerID n hn
    cases hc : assocFind viewerID cache with
    | none =>
        refine ⟨[], getTopMatches_viewer_absent hc n, List.sorted_nil, ?_⟩
        simp [viewerCount, hc]
    | some vDeps =>
        have hcount : viewerCount cache viewerID = vDeps.length := by
          simp [viewerCount, hc]
        by_cases h0 : vDeps.length = 0
        · refine ⟨[], ?_, List.sorted_nil, ?_⟩
          · rw [getTopMatches_viewer_present hc, if_pos h0]
          · simp [hcount, h0]
        · have hlen :
              (List.insertionSort scoreDescR (vDeps.map Prod.snd)).length =
                vDeps.length := by
            simp
          by_cases hgt :
              ((List.insertionSort scoreDescR (vDeps.map Prod.snd)).length : Int)
                > n
          · refine
              ⟨(List.insertionSort scoreDescR (vDeps.map Prod.snd)).take n.toNat,
               ?_, ?_, ?_⟩
            · rw [getTopMatches_viewer_present hc, if_neg h0, if_pos hgt]
              unfold goSlice
              rw [if_pos ⟨hn, le_of_lt hgt⟩]
            · exact (List.sorted_insertionSort scoreDescR _).sublist
                (List.take_sublist _ _)
            · rw [List.length_take, hlen, hcount]
          · refine ⟨List.insertionSort scoreDescR (vDeps.map Prod.snd), ?_,
              List.sorted_insertionSort scoreDescR _, ?_⟩
            · rw [getTopMatches_viewer_present hc, if_neg h0, if_neg hgt]
            · rw [hlen] at hgt
              rw [hlen, hcount]
              exact (Nat.min_eq_right (by omega)).symm
  · decide

/-- Witness for C1 (amended): the universal conjunct applied at the
spec's concrete store with `n = 3`. -/
theorem getTopMatches_sorted_and_length_witness :
    ∃ l, MemoryStorage.GetTopMatches exCacheC1 "v1" 3 = some l ∧
      List.Sorted scoreDescR l ∧
      l.length = min (3 : Int).toNat (viewerCount exCacheC1 "v1") :=
  getTopMatches_sorted_and_length.1 exCacheC1 "v1" 3 (by decide)

/-- C6 counterexample: after seed loading of two records for the same
ordered pair, the first loaded record `{v1, c1, 1, "first"}` is not
retrievable with its own score and reason — the later record overwrote
it (last-write-wins), refuting "every loaded record is retrievable". -/
theorem loadSeed_duplicate_counterexample :
    dupSeedRecords.head? = some ⟨"v1", "c1", 1, "first"⟩ ∧
    MemoryStorage.GetMatch (MemoryStorage.loadSeed [] dupSeedRecords 0)
      "v1" "c1" = some ⟨"c1", 2, "second", 0⟩ ∧
    MemoryStorage.GetMatch (MemoryStorage.loadSeed [] dupSeedRecords 0)
      "v1" "c1" ≠ some ⟨"c1", 1, "first", 0⟩ := by
  refine ⟨rfl, by decide, by decide⟩

/-- C6 (amended): seed loading round-trips through the store: the
concrete record `{v1, c1, 88.5, "Good match."}` is read back exactly, and
in general every loaded record whose ordered pair is not repeated later
in the seed list is retrievable by `GetMatch` with the same score and
reason (records repeated later are overwritten, last-write-wins). -/
theorem loadSeed_roundTrip :
    (∀ now : Nat,
      Service.GetMatch
          (MemoryStorage.loadSeed []
            [⟨"v1", "c1", mkRat 177 2, "Good match."⟩] now)
          "v1" "c1" = ⟨"c1", mkRat 177 2, "Good match.", now⟩) ∧
    (∀ (cache : Cache) (pre post : List PersistedMatch) (r : PersistedMatch)
        (now : Nat),
      (∀ r2 ∈ post, ¬(r2.viewerID = r.viewerID ∧ r2.targetID = r.targetID)) →
      MemoryStorage.GetMatch
          (MemoryStorage.loadSeed cache (pre ++ r :: post) now)
          r.viewerID r.targetID = some ⟨r.targetID, r.score, r.reason, now⟩) := by
  constructor
  · intro now
    unfold Service.GetMatch
    rw [show MemoryStorage.loadSeed []
          [⟨"v1", "c1", mkRat 177 2, "Good match."⟩] now =
        MemoryStorage.UpdateMatch [] "v1" "c1"
          ⟨"c1", mkRat 177 2, "Good match.", now⟩ from rfl]
    rw [getMatch_update_self]
    rfl
  · intro cache pre post r now hpost
    have hsplit : MemoryStorage.loadSeed cache (pre ++ r :: post) now =
        MemoryStorage.loadSeed
          (MemoryStorage.UpdateMatch (MemoryStorage.loadSeed cache pre now)
            r.viewerID r.targetID ⟨r.targetID, r.score, r.reason, now⟩)
          post now := by
      unfold MemoryStorage.loadSeed
      rw [List.foldl_append, List.foldl_cons]
    rw [hsplit, getMatch_loadSeed_frame hpost _ now, getMatch_update_self]

/-- Witness for C6 (amended): the concrete round trip, and the general
conjunct at a one-record list. -/
theorem loadSeed_roundTrip_witness :
    Service.GetMatch
        (MemoryStorage.loadSeed []
          [⟨"v1", "c1", mkRat 177 2, "Good match."⟩] 42)
        "v1" "c1" = ⟨"c1", mkRat 177 2, "Good match.", 42⟩ ∧
    MemoryStorage.GetMatch
        (MemoryStorage.loadSeed []
          ([] ++ (⟨"v2", "c2", 7, "ok"⟩ : PersistedMatch) :: []) 3)
        "v2" "c2" = some ⟨"c2", 7, "ok", 3⟩ :=
  ⟨loadSeed_roundTrip.1 42,
   loadSeed_roundTrip.2 [] [] [] ⟨"v2", "c2", 7, "ok"⟩ 3 (by decide)⟩

/-- C3 counterexample: the oracle response `null` has no well-formed
bracket pair, yet `callAI` does not return a shape-failure error: Go's
decoder accepts a top-level JSON `null` as a no-op, so `callAI` returns a
zero-valued success. -/
theorem callAI_no_bracket_null_counterexample :
    noBracketPair "null" = true ∧
    (callAI (oracleConst "null") 7 vData cAny).1 =
      Except.ok ⟨"c9", 0, "", 7⟩ := by
  constructor
  · decide
  · decide

/-- C3 (amended): the parser locates the first `{` and the last `}` and
JSON-decodes exactly that substring when a well-formed pair exists,
otherwise the whole text (so `callAI` never crashes, and returns an error
exactly when that decode fails); a bare JSON object and the same object
wrapped in surrounding prose parse into the same score and reason, while
non-JSON prose without a bracket pair yields a shape-failure error — the
exception being text that itself decodes as JSON (e.g. a bare `null`). -/
theorem callAI_bracket_extraction :
    (∀ (oracle : ChatRequest → Except String ChatResponse) (now : Nat)
        (v c : UserInput) (resp : ChatResponse) (choice : Choice)
        (rest : List Choice),
        ¬(v.tweets.length = 0 ∧ v.interests = "") →
        oracle (buildRequest v c) = Except.ok resp →
        resp.choices = choice :: rest →
        (callAI oracle now v c).1 =
          Except.map (fun p => (⟨c.id, p.1, p.2, now⟩ : MatchResult))
            (unmarshalScoreReason (extractJsonSpan choice.message.content))) ∧
    (∀ s : String, noBracketPair s = true → extractJsonSpan s = s) ∧
    extractJsonSpan wrappedJson = bareJson ∧
    unmarshalScoreReason bareJson = Except.ok (mkRat 177 2, "Good match.") ∧
    unmarshalScoreReason "Sorry, I cannot help." =
      Except.error "invalid json" ∧
    (callAI (oracleConst wrappedJson) 7 vData cAny).1 =
      (callAI (oracleConst bareJson) 7 vData cAny).1 := by
  refine ⟨?_, ?_, by decide, by decide, by decide, by decide⟩
  · intro oracle now v c resp choice rest h0 hor hch
    rw [callAI_eq_of_response oracle now v c resp choice rest h0 hor hch]
  · intro s hs
    unfold noBracketPair at hs
    unfold extractJsonSpan
    cases h1 : firstIdx lbrace s.data with
    | none => rfl
    | some i =>
        cases h2 : lastIdx rbrace s.data with
        | none => rfl
        | some j =>
            rw [h1, h2] at hs
            simp only [decide_eq_true_eq] at hs
            show (if i < j then
                String.mk ((s.data.drop i).take (j + 1 - i)) else s) = s
            rw [if_neg (not_lt.mpr hs)]

/-- Witness for C3 (amended): the extraction equation applied at the
prose-wrapped concrete response. -/
theorem callAI_bracket_extraction_witness :
    (callAI (oracleConst wrappedJson) 3 vData cAny).1 =
      Except.map (fun p => (⟨cAny.id, p.1, p.2, 3⟩ : MatchResult))
        (unmarshalScoreReason (extractJsonSpan wrappedJson)) :=
  callAI_bracket_extraction.1 (oracleConst wrappedJson) 3 vData cAny
    ⟨"id", [⟨0, ⟨"assistant", wrappedJson⟩, "stop"⟩]⟩
    ⟨0, ⟨"assistant", wrappedJson⟩, "stop"⟩ [] (by decide) rfl rfl

/-- C10: in every store state reachable from the empty store via the
core's own write paths (worker stores of successful `callAI` results and
seed loading), every stored entry's `TargetID` equals its inner key, so
`GetMatch(viewer, target)` returns either nothing or a result whose
`TargetID` equals the requested target. -/
theorem reachable_targetID_invariant :
    ∀ cache : Cache, Reachable cache →
      CacheWellFormed cache ∧
      (∀ (v t : String) (m : MatchResult),
        MemoryStorage.GetMatch cache v t = some m → m.targetID = t) :=
  fun _ h =>
    ⟨reachable_wellFormed h, fun _ _ _ hm =>
      getMatch_some_targetID (reachable_wellFormed h) hm⟩

/-- Witness for C10: a concrete reachable state (one seed record loaded
into the empty store) satisfies the invariant. -/
theorem reachable_targetID_invariant_witness :
    CacheWellFormed (MemoryStorage.loadSeed [] [⟨"v1", "c1", 5, "good"⟩] 0) ∧
    MatchResult.targetID ⟨"c1", 5, "good", 0⟩ = "c1" := by
  have h := reachable_targetID_invariant
    (MemoryStorage.loadSeed [] [⟨"v1", "c1", 5, "good"⟩] 0)
    (Reachable.seed [⟨"v1", "c1", 5, "good"⟩] 0 Reachable.empty)
  exact ⟨h.1, h.2 "v1" "c1" ⟨"c1", 5, "good", 0⟩ (by decide)⟩

end GlowMeet
